import Mathlib

/-!
Verification of the monetarium wallet transaction-construction core:
worst-case transaction size estimation (`wallet/txsizes/size.go`),
per-account consolidation-address policy (`wallet/udb/consolidation.go`),
and the SSFee transaction-shape classifier (modelled from the spec, the
implementation lives outside this repository).

Machine integers from the Go source are embedded as `Int` (Go `int` is a
64-bit signed integer; the sizes in play never approach the bounds, but
conversions to `uint64` are modelled exactly via reduction mod 2^64).
-/

namespace Txsizes

/-- Embeds `wire.VarIntSerializeSize` (Decred wire format): the number of
bytes of the compact-int encoding of an unsigned 64-bit value. -/
def VarIntSerializeSize (v : Nat) : Nat :=
  if v < 0xfd then 1
  else if v ≤ 0xffff then 3
  else if v ≤ 0xffffffff then 5
  else 9

/-- Go's conversion `uint64(s)` of a 64-bit signed integer `s`:
reduction modulo 2^64, yielding a natural number. -/
def goUint64 (s : Int) : Nat := (s % (2 : Int) ^ 64).toNat

/-- Abstract embedding of the external `wire.TxOut`: for size estimation the
only observation the wallet code makes of a transaction output is its
`SerializeSize()`, so an output is represented by that byte count. -/
structure TxOut where
  serializeSize : Nat
deriving Repr, DecidableEq

/-- Embeds `sumOutputSerializeSizes`: accumulates each output's serialize
size starting from zero. -/
def sumOutputSerializeSizes (outputs : List TxOut) : Nat :=
  outputs.foldl (fun acc o => acc + o.serializeSize) 0

/-- Embeds `EstimateInputSize`: 32 bytes previous tx + 4 output index +
1 tree + 8 amount + 4 block height + 4 block index + compact-int of the
script size + the script size + 4 sequence. -/
def EstimateInputSize (scriptSize : Int) : Int :=
  32 + 4 + 1 + 8 + 4 + 4 + (VarIntSerializeSize (goUint64 scriptSize) : Int)
    + scriptSize + 4

/-- Embeds `EstimateOutputSize`: 8 amount + 1 coin type + 2 version +
compact-int of the script size + the script size. -/
def EstimateOutputSize (scriptSize : Int) : Int :=
  8 + 1 + 2 + (VarIntSerializeSize (goUint64 scriptSize) : Int) + scriptSize

/-- Embeds `EstimateOutputSizeSKA`: 1 coin type + 1 value-length prefix +
16 worst-case value bytes + 2 version + compact-int of the script size +
the script size. -/
def EstimateOutputSizeSKA (scriptSize : Int) : Int :=
  1 + 1 + 16 + 2 + (VarIntSerializeSize (goUint64 scriptSize) : Int) + scriptSize

/-- Embeds `EstimateInputPrefixSize`: 32 previous tx + 4 output index +
1 tree + 4 sequence. -/
def EstimateInputPrefixSize : Int := 32 + 4 + 1 + 4

/-- Embeds `EstimateInputWitnessSize` (V13 format): 8 ValueIn +
1 SKAValueInLen + 4 block height + 4 block index + compact-int of the
script size + the script size. -/
def EstimateInputWitnessSize (scriptSize : Int) : Int :=
  8 + 1 + 4 + 4 + (VarIntSerializeSize (goUint64 scriptSize) : Int) + scriptSize

/-- Embeds `EstimateInputWitnessSizeSKA`: 8 ValueIn + 1 SKAValueInLen +
16 worst-case SKAValueIn + 4 block height + 4 block index + compact-int of
the script size + the script size. -/
def EstimateInputWitnessSizeSKA (scriptSize : Int) : Int :=
  8 + 1 + 16 + 4 + 4 + (VarIntSerializeSize (goUint64 scriptSize) : Int)
    + scriptSize

/-- Embeds `estimateSerializeSizeInternal`.  Change is added whenever
`changeScriptSize != 0`; the SKA flag selects the SKA variants of the
change-output and input-witness estimates. -/
def estimateSerializeSizeInternal (scriptSizes : List Int) (txOuts : List TxOut)
    (changeScriptSize : Int) (isSKA : Bool) : Int :=
  let inputCount := scriptSizes.length
  let outputCount :=
    if changeScriptSize ≠ 0 then txOuts.length + 1 else txOuts.length
  let changeSize : Int :=
    if changeScriptSize ≠ 0 then
      if isSKA then EstimateOutputSizeSKA changeScriptSize
      else EstimateOutputSize changeScriptSize
    else 0
  let baseSize : Int := 12 + (VarIntSerializeSize inputCount : Int)
    + (VarIntSerializeSize inputCount : Int)
    + (VarIntSerializeSize outputCount : Int)
  let prefixInputsSize : Int :=
    scriptSizes.foldl (fun acc _ => acc + EstimateInputPrefixSize) 0
  let witnessInputsSize : Int :=
    scriptSizes.foldl (fun acc s =>
      acc + (if isSKA then EstimateInputWitnessSizeSKA s
             else EstimateInputWitnessSize s)) 0
  let outputsSize : Int := (sumOutputSerializeSizes txOuts : Int) + changeSize
  baseSize + prefixInputsSize + witnessInputsSize + outputsSize

/-- Embeds `EstimateSerializeSize` (primary-asset wire format). -/
def EstimateSerializeSize (scriptSizes : List Int) (txOuts : List TxOut)
    (changeScriptSize : Int) : Int :=
  estimateSerializeSizeInternal scriptSizes txOuts changeScriptSize false

/-- Embeds `EstimateSerializeSizeSKA` (secondary-asset wire format). -/
def EstimateSerializeSizeSKA (scriptSizes : List Int) (txOuts : List TxOut)
    (changeScriptSize : Int) : Int :=
  estimateSerializeSizeInternal scriptSizes txOuts changeScriptSize true

/-- Embeds `EstimateSerializeSizeFromScriptSizes`: the abstract-sizes
overload.  Change is added only when `changeScriptSize > 0`. -/
def EstimateSerializeSizeFromScriptSizes (inputSizes : List Int)
    (outputSizes : List Int) (changeScriptSize : Int) : Int :=
  let txInsSize : Int :=
    inputSizes.foldl (fun acc s => acc + EstimateInputSize s) 0
  let txOutsSize : Int :=
    outputSizes.foldl (fun acc s => acc + EstimateOutputSize s) 0
  let inputCount := inputSizes.length
  let outputCount :=
    if changeScriptSize > 0 then outputSizes.length + 1 else outputSizes.length
  let changeSize : Int :=
    if changeScriptSize > 0 then EstimateOutputSize changeScriptSize else 0
  12 + 2 * (VarIntSerializeSize inputCount : Int)
    + (VarIntSerializeSize outputCount : Int)
    + txInsSize + txOutsSize + changeSize

/-- The worst case redeem script size of a compressed P2PKH output
(`RedeemP2PKHSigScriptSize` constant in the source). -/
def RedeemP2PKHSigScriptSize : Int := 1 + 73 + 1 + 33

end Txsizes

namespace Udb

/-- Error kinds raised by the consolidation store (`errors.Invalid` and
`errors.IO` in the source). -/
inductive Err where
  | invalid
  | io
deriving Repr, DecidableEq

/-- The `accountconsolidation` key-value bucket: account name → stored
bytes, represented as an association list. -/
abbrev Bucket := List (String × List Nat)

/-- Embeds `Put` on the bucket: replaces an existing binding for the key or
appends a new one (key-value store semantics of `walletdb`). -/
def bucketPut : Bucket → String → List Nat → Bucket
  | [], k, v => [(k, v)]
  | (k', v') :: rest, k, v =>
      if k' = k then (k, v) :: rest else (k', v') :: bucketPut rest k v

/-- Embeds `Get` on the bucket: the stored bytes for the key, or `none`. -/
def bucketGet : Bucket → String → Option (List Nat)
  | [], _ => none
  | (k', v') :: rest, k => if k' = k then some v' else bucketGet rest k

/-- Embeds `Delete` on the bucket: removes the binding for the key if present. -/
def bucketDelete : Bucket → String → Bucket
  | [], _ => []
  | (k', v') :: rest, k =>
      if k' = k then bucketDelete rest k else (k', v') :: bucketDelete rest k

/-- Embeds `SetAccountConsolidationAddr`: validates the hash length first,
then the account name, and only then writes.  The pair returns the Go
function's error result together with the bucket state after the call
(`Put` with a nonempty key inside a read-write transaction succeeds, so
the stored write is modelled as total). -/
def SetAccountConsolidationAddr (b : Bucket) (accountName : String)
    (hash160 : List Nat) : Except Err Unit × Bucket :=
  if hash160.length ≠ 20 then (.error .invalid, b)
  else if accountName = "" then (.error .invalid, b)
  else (.ok (), bucketPut b accountName hash160)

/-- Embeds `GetAccountConsolidationAddr`: the bucket may be absent
(`ReadBucket` returned nil, modelled as `none`).  Returns `none` for "no
override", an `IO` error for a stored record of corrupted length, and
otherwise the stored 20 bytes (the source returns a defensive copy, which
is value-equal to the stored bytes). -/
def GetAccountConsolidationAddr (bucket : Option Bucket)
    (accountName : String) : Except Err (Option (List Nat)) :=
  if accountName = "" then .error .invalid
  else
    match bucket with
    | none => .ok none
    | some b =>
        match bucketGet b accountName with
        | none => .ok none
        | some hash160 =>
            if hash160.length ≠ 20 then .error .io
            else .ok (some hash160)

/-- Embeds `ClearAccountConsolidationAddr`: validates the account name and
deletes the binding (idempotent). -/
def ClearAccountConsolidationAddr (b : Bucket) (accountName : String) :
    Except Err Unit × Bucket :=
  if accountName = "" then (.error .invalid, b)
  else (.ok (), bucketDelete b accountName)

end Udb

namespace Ssfee

/-!
The SSFee classifier (`stake.IsSSFee` / `isSSFeeTx`, `getSSFeeType`,
`isSSFeeMinerTx`) is implemented outside this repository; only its tests
are present here.  The definitions below are modelled from the spec's
structural rule (§4.4) and the marker wire format (§6), and agree with
every expectation recorded in the repository's tests.
-/

/-- A previous-output reference (`wire.OutPoint`): a 32-byte transaction
hash and an output index. -/
structure OutPoint where
  hash : List Nat
  index : Nat
deriving Repr, DecidableEq

/-- A transaction input (`wire.TxIn`), restricted to the fields the
classifier observes. -/
structure TxIn where
  previousOutPoint : OutPoint
  signatureScript : List Nat
deriving Repr, DecidableEq

/-- A transaction output (`wire.TxOut`), restricted to the fields the
classifier observes. -/
structure TxOut where
  value : Int
  coinType : Nat
  pkScript : List Nat
deriving Repr, DecidableEq

/-- A transaction (`wire.MsgTx`), restricted to the fields the classifier
observes. -/
structure MsgTx where
  version : Nat
  txIn : List TxIn
  txOut : List TxOut
deriving Repr, DecidableEq

/-- Embeds `wire.MaxPrevOutIndex`: the maximum output index, marking a null
previous-output reference. -/
def MaxPrevOutIndex : Nat := 0xffffffff

/-- A null input reference: zero hash and maximum index. -/
def isNullOutpoint (op : OutPoint) : Bool :=
  decide (op.hash = List.replicate 32 0) && decide (op.index = MaxPrevOutIndex)

/-- Modelled from the spec: the final marker output must be value 0 with
script `0x6a 0x06 <tag:2> <height:4>` where the tag is "MF" (0x4D 0x46)
or "SF" (0x53 0x46). -/
def ssfeeMarkerOk (o : TxOut) : Bool :=
  decide (o.value = 0) &&
  (match o.pkScript with
   | [a, b, t1, t2, _, _, _, _] =>
       decide (a = 0x6a) && decide (b = 0x06) &&
       (decide (t1 = 0x4D ∧ t2 = 0x46) || decide (t1 = 0x53 ∧ t2 = 0x46))
   | _ => false)

/-- The 2-byte tag parsed from the final output's marker script, as a
string ("MF", "SF", or "" when no well-formed marker is present). -/
def ssfeeTag (tx : MsgTx) : String :=
  match tx.txOut.getLast? with
  | some o =>
      match o.pkScript with
      | [a, b, t1, t2, _, _, _, _] =>
          if a = 0x6a ∧ b = 0x06 then
            if t1 = 0x4D ∧ t2 = 0x46 then "MF"
            else if t1 = 0x53 ∧ t2 = 0x46 then "SF"
            else ""
          else ""
      | _ => ""
  | none => ""

/-- Modelled from the spec: all outputs excluding the final marker share
exactly one CoinType, and at least one reward output is present. -/
def rewardOutputsOk (outs : List TxOut) : Bool :=
  match outs with
  | [] => false
  | o :: rest => rest.all (fun o' => o'.coinType == o.coinType)

/-- Modelled from the spec: the SSFee structural recognizer.  Missing from
this repository's sources (only its tests are present); follows §4.4:
version ≥ 3, exactly one input that is null or carries an empty signature
script, a final value-0 marker output `0x6a 0x06 <tag> <height>`, between
1 and 4 reward outputs (hard cap of 5 outputs total) all sharing one
CoinType. -/
def isSSFeeTx (tx : MsgTx) : Bool :=
  decide (3 ≤ tx.version) &&
  (match tx.txIn with
   | [txin] => isNullOutpoint txin.previousOutPoint ||
               txin.signatureScript.isEmpty
   | _ => false) &&
  decide (2 ≤ tx.txOut.length) && decide (tx.txOut.length ≤ 5) &&
  (match tx.txOut.getLast? with
   | some o => ssfeeMarkerOk o
   | none => false) &&
  rewardOutputsOk tx.txOut.dropLast

/-- Modelled from the spec: the SSFee flavor — the marker's tag when the
transaction is classified as SSFee, and "" otherwise. -/
def getSSFeeType (tx : MsgTx) : String :=
  if isSSFeeTx tx then ssfeeTag tx else ""

/-- Modelled from the spec: the companion predicate selecting
coinbase-equivalent maturity gating — true only when the transaction is
an SSFee of flavor "MF". -/
def isSSFeeMinerTx (tx : MsgTx) : Bool :=
  getSSFeeType tx == "MF"

/-- The tests' `createMockSSFeeTx` shape at a chosen version: one null
input, three CoinType-1 reward outputs of value 1000, and a final value-0
marker output `0x6a 0x06 'S' 'F'` followed by four height bytes. -/
def mockSSFeeTx (version : Nat) : MsgTx :=
  { version := version
    txIn := [{ previousOutPoint := { hash := List.replicate 32 0
                                     index := MaxPrevOutIndex }
               signatureScript := [] }]
    txOut := [{ value := 1000, coinType := 1, pkScript := List.replicate 25 0 },
              { value := 1000, coinType := 1, pkScript := List.replicate 25 0 },
              { value := 1000, coinType := 1, pkScript := List.replicate 25 0 },
              { value := 0, coinType := 1,
                pkScript := [0x6a, 0x06, 0x53, 0x46, 0, 0, 0, 0] }] }

end Ssfee

/-! ## Theorems -/

namespace Txsizes

/-- A left fold accumulating `f` over a list equals the initial value plus
the sum of the mapped list. -/
lemma foldl_add_eq {α M : Type} [AddCommMonoid M] (f : α → M) :
    ∀ (l : List α) (init : M),
      l.foldl (fun acc x => acc + f x) init = init + (l.map f).sum := by
  intro l
  induction l with
  | nil => intro init; simp
  | cons a t ih =>
      intro init
      simp only [List.foldl_cons, List.map_cons, List.sum_cons, ih, add_assoc]

/-- Summing a constant over a list multiplies it by the length. -/
lemma sum_map_const {α : Type} (l : List α) (k : Int) :
    (l.map (fun _ => k)).sum = (l.length : Int) * k := by
  induction l with
  | nil => simp
  | cons a t ih =>
      simp only [List.map_cons, List.sum_cons, ih, List.length_cons]
      push_cast
      ring

/-- The value of `sumOutputSerializeSizes`, cast to `Int`, is the sum of
the outputs' serialize sizes. -/
lemma sumOutputSerializeSizes_eq (outs : List TxOut) :
    (sumOutputSerializeSizes outs : Int)
      = (outs.map (fun o => (o.serializeSize : Int))).sum := by
  unfold sumOutputSerializeSizes
  rw [foldl_add_eq (fun o => o.serializeSize) outs 0]
  push_cast [Nat.cast_list_sum, List.map_map]
  simp [Function.comp_def]

/-- Closed form of `estimateSerializeSizeInternal`: fixed header, the three
count varints, per-input prefix, per-input witness, output sizes, and the
change output when `changeScriptSize ≠ 0`. -/
lemma estimateSerializeSizeInternal_eq (ss : List Int) (outs : List TxOut)
    (c : Int) (k : Bool) :
    estimateSerializeSizeInternal ss outs c k =
      12 + (VarIntSerializeSize ss.length : Int)
        + (VarIntSerializeSize ss.length : Int)
        + (VarIntSerializeSize
            (if c ≠ 0 then outs.length + 1 else outs.length) : Int)
        + (ss.length : Int) * EstimateInputPrefixSize
        + (ss.map (fun s => if k then EstimateInputWitnessSizeSKA s
                            else EstimateInputWitnessSize s)).sum
        + (outs.map (fun o => (o.serializeSize : Int))).sum
        + (if c ≠ 0 then
             (if k then EstimateOutputSizeSKA c else EstimateOutputSize c)
           else 0) := by
  unfold estimateSerializeSizeInternal
  rw [foldl_add_eq (fun _ => EstimateInputPrefixSize) ss 0,
      foldl_add_eq (fun s => if k then EstimateInputWitnessSizeSKA s
                             else EstimateInputWitnessSize s) ss 0,
      sumOutputSerializeSizes_eq, sum_map_const]
  ring

/-- C1: for every list of input redeem-script sizes, every list of
transaction outputs and every change script size `c` (`c = 0` meaning no
change requested), `EstimateSerializeSize` returns exactly the 12-byte
fixed header plus `varint(inputCount)` twice, plus `varint(outputCount)`
counting one extra output when change is requested, plus per input a
41-byte prefix (32+4+1+4) and a witness of `8+1+4+4+varint(s)+s` bytes,
plus the sum of the outputs' serialize sizes, plus the change-output
estimate `8+1+2+varint(c)+c` when change is requested. -/
theorem estimateSerializeSize_total_formula (scriptSizes : List Int)
    (txOuts : List TxOut) (c : Int) :
    EstimateSerializeSize scriptSizes txOuts c =
      12 + (VarIntSerializeSize scriptSizes.length : Int)
        + (VarIntSerializeSize scriptSizes.length : Int)
        + (VarIntSerializeSize
            (if c ≠ 0 then txOuts.length + 1 else txOuts.length) : Int)
        + (scriptSizes.length : Int) * (32 + 4 + 1 + 4)
        + (scriptSizes.map
            (fun s => 8 + 1 + 4 + 4
              + (VarIntSerializeSize (goUint64 s) : Int) + s)).sum
        + (txOuts.map (fun o => (o.serializeSize : Int))).sum
        + (if c ≠ 0 then
             8 + 1 + 2 + (VarIntSerializeSize (goUint64 c) : Int) + c
           else 0) := by
  rw [EstimateSerializeSize, estimateSerializeSizeInternal_eq]
  simp only [Bool.false_eq_true, if_false, EstimateInputWitnessSize,
    EstimateOutputSize, EstimateInputPrefixSize]

/-- C5: `EstimateSerializeSize` with one input of the worst-case P2PKH
redeem script size (108 bytes), no outputs and no change returns exactly
182 bytes. -/
theorem estimateSerializeSize_baseline :
    EstimateSerializeSize [RedeemP2PKHSigScriptSize] [] 0 = 182 := by
  decide

end Txsizes

namespace Txsizes

/-- Closed form of `EstimateSerializeSizeFromScriptSizes`. -/
lemma estimateSerializeSizeFromScriptSizes_eq (i o : List Int) (c : Int) :
    EstimateSerializeSizeFromScriptSizes i o c =
      12 + 2 * (VarIntSerializeSize i.length : Int)
        + (VarIntSerializeSize (if c > 0 then o.length + 1 else o.length) : Int)
        + (i.map (fun s => EstimateInputSize s)).sum
        + (o.map (fun s => EstimateOutputSize s)).sum
        + (if c > 0 then EstimateOutputSize c else 0) := by
  unfold EstimateSerializeSizeFromScriptSizes
  rw [foldl_add_eq (fun s => EstimateInputSize s) i 0,
      foldl_add_eq (fun s => EstimateOutputSize s) o 0]
  ring

/-- C3 counterexample: the per-input contribution of the abstract overload
differs from prefix-plus-witness at script size 108, and the two overloads
disagree on the one-input, zero-output, zero-change total. -/
theorem estimateInputSize_counterexample :
    EstimateInputSize 108
        ≠ EstimateInputPrefixSize + EstimateInputWitnessSize 108
      ∧ EstimateSerializeSizeFromScriptSizes [108] [] 0
        ≠ EstimateSerializeSize [108] [] 0 := by
  decide

/-- C3 (amended): the abstract overload omits exactly the 1-byte V13
SKAValueInLen field per input: `EstimateInputSize s + 1 =
EstimateInputPrefixSize + EstimateInputWitnessSize s`, so for equal
nonnegative input script sizes, output script sizes and change script size
`EstimateSerializeSizeFromScriptSizes` returns exactly `inputCount` bytes
less than `EstimateSerializeSize`. -/
theorem estimateInputSize_off_by_one (s : Int) (inputSizes outputSizes : List Int)
    (c : Int) (hc : 0 ≤ c) (houts : ∀ z ∈ outputSizes, (0 : Int) ≤ z) :
    EstimateInputSize s + 1
        = EstimateInputPrefixSize + EstimateInputWitnessSize s
      ∧ EstimateSerializeSizeFromScriptSizes inputSizes outputSizes c
          + inputSizes.length
        = EstimateSerializeSize inputSizes
            (outputSizes.map (fun z => ⟨(EstimateOutputSize z).toNat⟩)) c := by
  constructor
  · unfold EstimateInputSize EstimateInputPrefixSize EstimateInputWitnessSize
    ring
  · rw [estimateSerializeSizeFromScriptSizes_eq, EstimateSerializeSize,
        estimateSerializeSizeInternal_eq]
    have hlen : (outputSizes.map
        (fun z => (⟨(EstimateOutputSize z).toNat⟩ : TxOut))).length
          = outputSizes.length := by
      simp
    have houtsum : ((outputSizes.map
          (fun z => (⟨(EstimateOutputSize z).toNat⟩ : TxOut))).map
            (fun o => (o.serializeSize : Int))).sum
        = (outputSizes.map (fun z => EstimateOutputSize z)).sum := by
      rw [List.map_map]
      refine congrArg List.sum (List.map_congr_left ?_)
      intro z hz
      have h0 : (0 : Int) ≤ EstimateOutputSize z := by
        have := houts z hz
        unfold EstimateOutputSize
        positivity
      simp [Function.comp_def, Int.toNat_of_nonneg h0]
    have hinsum : (inputSizes.map (fun s => EstimateInputSize s)).sum
        = (inputSizes.map (fun s => if false then EstimateInputWitnessSizeSKA s
                                    else EstimateInputWitnessSize s)).sum
          + (inputSizes.length : Int) * 40 := by
      simp only [Bool.false_eq_true, if_false]
      have : inputSizes.map (fun s => EstimateInputSize s)
          = inputSizes.map (fun s => EstimateInputWitnessSize s + 40) := by
        refine List.map_congr_left ?_
        intro z _
        unfold EstimateInputSize EstimateInputWitnessSize
        ring
      rw [this]
      rw [show (fun s => EstimateInputWitnessSize s + 40)
            = (fun s => EstimateInputWitnessSize s + (fun _ : Int => (40 : Int)) s)
          from rfl]
      rw [List.sum_map_add, sum_map_const]
    rcases lt_or_eq_of_le hc with hpos | hzero
    · simp only [hlen, houtsum, hinsum, gt_iff_lt, hpos, if_true, ite_true,
        ne_eq, ne_of_gt hpos, not_false_eq_true, Bool.false_eq_true, if_false]
      unfold EstimateInputPrefixSize
      ring
    · rw [← hzero]
      simp only [hlen, houtsum, hinsum, gt_iff_lt, lt_self_iff_false, if_false,
        ne_eq, not_true_eq_false, Bool.false_eq_true, ite_false]
      unfold EstimateInputPrefixSize
      ring

end Txsizes

namespace Txsizes

/-- C6: for identical arguments, the SKA estimate exceeds the primary-asset
estimate by exactly 16 bytes per input (the worst-case secondary value
bytes in each witness) plus 9 bytes for the change output when change is
requested (8-byte amount replaced by a 1-byte length plus 16 value bytes);
in particular the SKA estimate is never smaller. -/
theorem estimateSerializeSizeSKA_diff (ss : List Int) (outs : List TxOut)
    (c : Int) :
    EstimateSerializeSizeSKA ss outs c
        = EstimateSerializeSize ss outs c + 16 * ss.length
          + (if c ≠ 0 then 9 else 0)
      ∧ EstimateSerializeSize ss outs c ≤ EstimateSerializeSizeSKA ss outs c := by
  have hmain : EstimateSerializeSizeSKA ss outs c
      = EstimateSerializeSize ss outs c + 16 * ss.length
        + (if c ≠ 0 then 9 else 0) := by
    rw [EstimateSerializeSizeSKA, EstimateSerializeSize,
        estimateSerializeSizeInternal_eq, estimateSerializeSizeInternal_eq]
    have hwit : (ss.map (fun s => EstimateInputWitnessSizeSKA s)).sum
        = (ss.map (fun s => EstimateInputWitnessSize s)).sum
          + (ss.length : Int) * 16 := by
      have hmap : ss.map (fun s => EstimateInputWitnessSizeSKA s)
          = ss.map (fun s =>
              EstimateInputWitnessSize s + (fun _ : Int => (16 : Int)) s) := by
        refine List.map_congr_left ?_
        intro z _
        unfold EstimateInputWitnessSizeSKA EstimateInputWitnessSize
        ring
      rw [hmap, List.sum_map_add, sum_map_const]
    have hout : EstimateOutputSizeSKA c = EstimateOutputSize c + 9 := by
      unfold EstimateOutputSizeSKA EstimateOutputSize
      ring
    simp only [eq_self_iff_true, if_true, Bool.false_eq_true, if_false,
      ite_true, ite_false, hwit, hout]
    by_cases h : c = 0
    · simp only [h, ne_eq, not_true_eq_false, if_false, ite_false]
      ring
    · simp only [ne_eq, h, not_false_eq_true, if_true, ite_true]
      ring
  refine ⟨hmain, ?_⟩
  rw [hmain]
  have h1 : (0 : Int) ≤ 16 * ss.length := by positivity
  by_cases h : c = 0
  · simp only [h, ne_eq, not_true_eq_false, if_false, ite_false]
    linarith
  · simp only [ne_eq, h, not_false_eq_true, if_true, ite_true]
    linarith

/-- Compact-int size is monotone in its argument. -/
lemma varIntSerializeSize_mono {m n : Nat} (h : m ≤ n) :
    VarIntSerializeSize m ≤ VarIntSerializeSize n := by
  unfold VarIntSerializeSize
  split_ifs <;> omega

/-- For a change script size between -19 and -1, Go's `uint64` conversion
wraps to a value above 2^32, so its compact-int size is 9 bytes. -/
lemma varIntSerializeSize_goUint64_neg {c : Int} (h1 : -20 < c) (h2 : c < 0) :
    VarIntSerializeSize (goUint64 c) = 9 := by
  have hp : ((2 : Int) ^ 64) = 18446744073709551616 := by norm_num
  have hmod : c % (2 : Int) ^ 64 = c + 18446744073709551616 := by
    rw [hp]
    omega
  unfold goUint64 VarIntSerializeSize
  rw [hmod]
  split_ifs <;> omega

/-- C10 counterexample: at change script size -20 the estimate equals the
no-change estimate, so a negative change script size does not always give
a strictly larger total. -/
theorem negativeChange_not_strictly_larger :
    ¬ (EstimateSerializeSize [] [] 0 < EstimateSerializeSize [] [] (-20)) := by
  decide

/-- C10 (amended): `EstimateSerializeSize` counts an additional change
output for every nonzero change script size, and for every negative `c`
strictly above -20 it returns a strictly larger total than with `c = 0`
(at `c = -20` the wrapped 9-byte varint plus the negative script size
cancel the 11 fixed change bytes exactly); `EstimateSerializeSizeFromScriptSizes`
counts the change output only when `c` is strictly greater than 0, so for
every nonpositive `c` it returns the no-change total. -/
theorem changeRequest_conditions (ss : List Int) (outs : List TxOut)
    (c : Int) (h1 : -20 < c) (h2 : c < 0)
    (i o : List Int) (c2 : Int) (hc2 : c2 ≤ 0) :
    EstimateSerializeSize ss outs 0 < EstimateSerializeSize ss outs c
      ∧ EstimateSerializeSizeFromScriptSizes i o c2
        = EstimateSerializeSizeFromScriptSizes i o 0 := by
  constructor
  · rw [EstimateSerializeSize, EstimateSerializeSize,
        estimateSerializeSizeInternal_eq, estimateSerializeSizeInternal_eq]
    have hc0 : c ≠ 0 := ne_of_lt h2
    simp only [ne_eq, hc0, not_false_eq_true, if_true, ite_true,
      not_true_eq_false, if_false, ite_false, Bool.false_eq_true]
    have hv : (VarIntSerializeSize (goUint64 c) : Int) = 9 := by
      rw [varIntSerializeSize_goUint64_neg h1 h2]
      norm_num
    have hm : (VarIntSerializeSize outs.length : Int)
        ≤ (VarIntSerializeSize (outs.length + 1) : Int) := by
      exact_mod_cast varIntSerializeSize_mono (Nat.le_succ outs.length)
    unfold EstimateOutputSize
    linarith
  · rw [estimateSerializeSizeFromScriptSizes_eq,
        estimateSerializeSizeFromScriptSizes_eq]
    have hng : ¬ (c2 > 0) := not_lt.mpr hc2
    simp only [gt_iff_lt, hng, if_false, ite_false, lt_self_iff_false]

end Txsizes

namespace Txsizes

/-- Witness for the amended C3 statement at script size 108, one input,
one 25-byte output and a 25-byte change script. -/
theorem estimateInputSize_off_by_one_witness :
    EstimateInputSize 108 + 1
        = EstimateInputPrefixSize + EstimateInputWitnessSize 108
      ∧ EstimateSerializeSizeFromScriptSizes [108] [25] 25
          + ([108] : List Int).length
        = EstimateSerializeSize [108]
            (([25] : List Int).map (fun z => ⟨(EstimateOutputSize z).toNat⟩)) 25 :=
  estimateInputSize_off_by_one 108 [108] [25] 25 (by norm_num)
    (by
      intro z hz
      rw [List.mem_singleton] at hz
      subst hz
      norm_num)

/-- Witness for the amended C10 statement: one 108-byte input, no outputs,
change script size -1 against 0, and -5 against 0 for the abstract
overload. -/
theorem changeRequest_conditions_witness :
    EstimateSerializeSize [108] [] 0 < EstimateSerializeSize [108] [] (-1)
      ∧ EstimateSerializeSizeFromScriptSizes [108] [] (-5)
        = EstimateSerializeSizeFromScriptSizes [108] [] 0 :=
  changeRequest_conditions [108] [] (-1) (by norm_num) (by norm_num)
    [108] [] (-5) (by norm_num)

end Txsizes

namespace Udb

/-- A value just written under a key is what `Get` returns for that key. -/
lemma bucketGet_bucketPut_self (b : Bucket) (k : String) (v : List Nat) :
    bucketGet (bucketPut b k v) k = some v := by
  induction b with
  | nil => simp [bucketPut, bucketGet]
  | cons hd t ih =>
      obtain ⟨k', v'⟩ := hd
      by_cases h : k' = k
      · simp [bucketPut, h, bucketGet]
      · simp [bucketPut, h, bucketGet, ih]

/-- C2: for every nonempty account name and 20-byte hash, a successful
`SetAccountConsolidationAddr` followed by `GetAccountConsolidationAddr`
on the resulting store returns that 20-byte hash with no error. -/
theorem set_then_get_roundtrip (b : Bucket) (accountName : String)
    (hash160 : List Nat) (hname : accountName ≠ "")
    (hlen : hash160.length = 20) :
    (SetAccountConsolidationAddr b accountName hash160).1 = .ok ()
      ∧ GetAccountConsolidationAddr
          (some (SetAccountConsolidationAddr b accountName hash160).2)
          accountName
        = .ok (some hash160) := by
  constructor
  · simp [SetAccountConsolidationAddr, hlen, hname]
  · simp [SetAccountConsolidationAddr, GetAccountConsolidationAddr, hlen,
      hname, bucketGet_bucketPut_self]

/-- Witness for C2 at account "default" and the 20-byte hash 7,7,...,7
over the empty bucket. -/
theorem set_then_get_roundtrip_witness :
    (SetAccountConsolidationAddr [] "default" (List.replicate 20 7)).1
        = .ok ()
      ∧ GetAccountConsolidationAddr
          (some (SetAccountConsolidationAddr [] "default"
                  (List.replicate 20 7)).2) "default"
        = .ok (some (List.replicate 20 7)) :=
  set_then_get_roundtrip [] "default" (List.replicate 20 7) (by decide)
    (by decide)

end Udb

namespace Udb

/-- C7: for every nonempty account name, `GetAccountConsolidationAddr`
returns the distinct no-override value (`none`) without error both when
the bucket is absent and when no record is stored for the account, and it
returns an error — always the IO error — exactly when a stored record
exists whose length is not 20 bytes. -/
theorem get_no_override_and_io_iff (accountName : String) (b : Bucket)
    (hname : accountName ≠ "") :
    GetAccountConsolidationAddr none accountName = .ok none
      ∧ (bucketGet b accountName = none →
          GetAccountConsolidationAddr (some b) accountName = .ok none)
      ∧ ((∃ e, GetAccountConsolidationAddr (some b) accountName = .error e)
          ↔ (∃ v, bucketGet b accountName = some v ∧ v.length ≠ 20))
      ∧ (∀ e, GetAccountConsolidationAddr (some b) accountName = .error e
          → e = .io) := by
  refine ⟨?_, ?_, ?_, ?_⟩
  · simp [GetAccountConsolidationAddr, hname]
  · intro h
    simp [GetAccountConsolidationAddr, hname, h]
  · cases hv : bucketGet b accountName with
    | none => simp [GetAccountConsolidationAddr, hname, hv]
    | some v =>
        by_cases hl : v.length = 20
        · simp [GetAccountConsolidationAddr, hname, hv, hl]
        · simp [GetAccountConsolidationAddr, hname, hv, hl]
  · intro e he
    simp only [GetAccountConsolidationAddr, if_neg hname] at he
    cases hv : bucketGet b accountName with
    | none =>
        rw [hv] at he
        simp at he
    | some v =>
        rw [hv] at he
        by_cases hl : v.length = 20
        · simp [hl] at he
        · simp [hl] at he
          first
          | exact he
          | exact he.symm

/-- Witness for C7 at account "default" over a bucket storing a corrupted
3-byte record for that account. -/
theorem get_no_override_and_io_iff_witness :
    GetAccountConsolidationAddr none "default" = .ok none
      ∧ (bucketGet [("default", [1, 2, 3])] "default" = none →
          GetAccountConsolidationAddr (some [("default", [1, 2, 3])]) "default"
            = .ok none)
      ∧ ((∃ e, GetAccountConsolidationAddr (some [("default", [1, 2, 3])])
              "default" = .error e)
          ↔ (∃ v, bucketGet [("default", [1, 2, 3])] "default" = some v
              ∧ v.length ≠ 20))
      ∧ (∀ e, GetAccountConsolidationAddr (some [("default", [1, 2, 3])])
            "default" = .error e → e = .io) :=
  get_no_override_and_io_iff "default" [("default", [1, 2, 3])] (by decide)

/-- C8: the boundary validation is a raises-iff: `SetAccountConsolidationAddr`
returns the Invalid error exactly when the account name is empty or the
hash is not 20 bytes, `GetAccountConsolidationAddr` and
`ClearAccountConsolidationAddr` return the Invalid error exactly when the
account name is empty, and in every Invalid case the store is unchanged. -/
theorem consolidation_invalid_iff (b : Bucket) (accountName : String)
    (hash160 : List Nat) (bucket : Option Bucket) :
    ((SetAccountConsolidationAddr b accountName hash160).1 = .error .invalid
        ↔ (accountName = "" ∨ hash160.length ≠ 20))
      ∧ (GetAccountConsolidationAddr bucket accountName = .error .invalid
          ↔ accountName = "")
      ∧ ((ClearAccountConsolidationAddr b accountName).1 = .error .invalid
          ↔ accountName = "")
      ∧ ((accountName = "" ∨ hash160.length ≠ 20) →
          (SetAccountConsolidationAddr b accountName hash160).2 = b)
      ∧ (accountName = "" →
          (ClearAccountConsolidationAddr b accountName).2 = b) := by
  refine ⟨?_, ?_, ?_, ?_, ?_⟩
  · by_cases h1 : hash160.length = 20 <;> by_cases h2 : accountName = "" <;>
      simp [SetAccountConsolidationAddr, h1, h2]
  · by_cases h2 : accountName = ""
    · simp [GetAccountConsolidationAddr, h2]
    · cases bucket with
      | none => simp [GetAccountConsolidationAddr, h2]
      | some bb =>
          cases hv : bucketGet bb accountName with
          | none => simp [GetAccountConsolidationAddr, h2, hv]
          | some v =>
              by_cases hl : v.length = 20 <;>
                simp [GetAccountConsolidationAddr, h2, hv, hl]
  · by_cases h2 : accountName = "" <;> simp [ClearAccountConsolidationAddr, h2]
  · intro h
    rcases h with h | h
    · simp [SetAccountConsolidationAddr, h]
    · simp [SetAccountConsolidationAddr, h]
  · intro h
    simp [ClearAccountConsolidationAddr, h]

end Udb

namespace Ssfee

/-- C4 (spec-modelled): a transaction whose version is 2 is never
classified as SSFee, whatever its inputs, outputs and marker look like. -/
theorem version2_not_ssfee (tx : MsgTx) (h : tx.version = 2) :
    isSSFeeTx tx = false := by
  unfold isSSFeeTx
  rw [h]
  simp

/-- Witness for C4: the tests' mock SSFee shape at version 2 is rejected,
while the identical shape at version 3 is classified as SSFee. -/
theorem version2_not_ssfee_witness :
    (mockSSFeeTx 2).version = 2 ∧ isSSFeeTx (mockSSFeeTx 2) = false
      ∧ isSSFeeTx (mockSSFeeTx 3) = true :=
  ⟨rfl, version2_not_ssfee (mockSSFeeTx 2) rfl, by decide⟩

/-- C9 (spec-modelled): `isSSFeeMinerTx` returns true exactly when the
transaction is classified as SSFee and its 2-byte marker tag is "MF"; in
particular an "SF"-tagged SSFee transaction and any non-SSFee transaction
both yield false. -/
theorem isSSFeeMinerTx_iff (tx : MsgTx) :
    isSSFeeMinerTx tx = true ↔ (isSSFeeTx tx = true ∧ ssfeeTag tx = "MF") := by
  unfold isSSFeeMinerTx getSSFeeType
  by_cases h : isSSFeeTx tx = true
  · simp [h]
  · simp [h]

end Ssfee
